import Mathlib

/-!
Shallow embedding of the gacha probability engine
(`internal/gacha`: `draw.go`, `softpity.go`, the pity, banner and RNG
files) of `xtding233/gacha-backend`.

Go `float64` values are modelled as exact rationals (`ℚ`); all the
probability arithmetic of the engine is `+ - * /` and comparisons, which
are exact on the dyadic constants the code uses.  Go `int` is modelled as
`ℤ`.  A `RandomSource` is modelled as an explicit stream of rationals
together with a cursor; "consuming one random value" advances the cursor
by one.  Go's `(value, error)` returns are modelled as
`value × Option Err`, mutation of a receiver as explicit state passing.
NaN / infinity are not representable in `ℚ`; the embedding covers the
finite inputs.
-/

namespace Gacha

/-- A `RandomSource`: an infinite stream of values in `[0,1)` with a
cursor.  `Float64()` reads `stream idx` and advances `idx`. -/
structure Rng where
  stream : ℕ → ℚ
  idx : ℕ

/-- One call of `Float64()`. -/
def Rng.next (r : Rng) : ℚ × Rng :=
  (r.stream r.idx, ⟨r.stream, r.idx + 1⟩)

/-- The two error kinds of the engine (`ErrInvalidProb`,
`ErrSoftPityConfig`). -/
inductive Err where
  | invalidProb
  | softPityConfig
deriving DecidableEq, Repr

/-- `validateProb` from the Go source: rejects `p < 0 || p > 1`
(NaN / Inf are outside `ℚ`). -/
def validateProb (p : ℚ) : Option Err :=
  if p < 0 ∨ p > 1 then some .invalidProb else none

/-- `Draw(p, rng)` from `draw.go`: validate, then short-circuit the
extremes, otherwise compare one random value against `p`.
Result: `(hit, error, post-state of the source)`. -/
def Draw (p : ℚ) (rng : Rng) : Bool × Option Err × Rng :=
  match validateProb p with
  | some e => (false, some e, rng)
  | none =>
    if p ≤ 0 then (false, none, rng)
    else if p ≥ 1 then (true, none, rng)
    else
      let (u, r') := rng.next
      (decide (u < p), none, r')

/-- `PitySystem` from the pity file: hard-pity threshold, miss counter,
and its random source. -/
structure PitySystem where
  Pity : ℤ
  Count : ℤ
  RNG : Rng

/-- `PitySystem.Draw`: with `Pity <= 0` fall back to plain `Draw`;
a draw reaching the threshold is a forced hit resetting `Count`;
otherwise delegate to `Draw` and update `Count`. -/
def PitySystem.Draw (ps : PitySystem) (p : ℚ) : Bool × Option Err × PitySystem :=
  if ps.Pity ≤ 0 then
    let (hit, err, r') := Gacha.Draw p ps.RNG
    (hit, err, { ps with RNG := r' })
  else if ps.Count + 1 ≥ ps.Pity then
    (true, none, { ps with Count := 0 })
  else
    let (hit, err, r') := Gacha.Draw p ps.RNG
    match err with
    | some e => (false, some e, { ps with RNG := r' })
    | none =>
      (hit, none, { ps with Count := if hit then 0 else ps.Count + 1, RNG := r' })

/-- The `Easing` string: the three named curves, plus `unspecified` for
the empty string (and unknown strings, which the switch treats exactly
like `linear`). -/
inductive Easing where
  | linear
  | easeOutQuad
  | easeInOutCubic
  | unspecified
deriving DecidableEq, Repr

/-- `SoftPityConfig` from `softpity.go`. -/
structure SoftPityConfig where
  Pity : ℤ
  StartAt : ℤ
  TargetProb : ℚ
  Easing : Easing
deriving DecidableEq

/-- `SoftPityConfig.normalize`: validates `Pity > 1`,
`TargetProb ∈ (0,1)`, clamps a negative `StartAt` to 0, requires
`StartAt < Pity - 1`, defaults the easing to linear. -/
def SoftPityConfig.normalize (c : SoftPityConfig) : Except Err SoftPityConfig :=
  if c.Pity ≤ 1 then .error .softPityConfig
  else if c.TargetProb ≤ 0 ∨ c.TargetProb ≥ 1 then .error .softPityConfig
  else
    let s := if c.StartAt < 0 then 0 else c.StartAt
    if s ≥ c.Pity - 1 then .error .softPityConfig
    else .ok { c with StartAt := s,
                      Easing := if c.Easing = .unspecified then .linear else c.Easing }

/-- `SoftPitySystem`: the embedded `PitySystem` fields plus the optional
ramp config. -/
structure SoftPitySystem where
  Pity : ℤ
  Count : ℤ
  RNG : Rng
  Soft : Option SoftPityConfig

/-- `NewSoftPitySystem(pity, soft, rng)`: overwrite the config's pity
with `pity`, normalize it, or build a plain hard-pity system when `soft`
is nil. -/
def NewSoftPitySystem (pity : ℤ) (soft : Option SoftPityConfig) (rng : Rng) :
    Except Err SoftPitySystem :=
  match soft with
  | none => .ok ⟨pity, 0, rng, none⟩
  | some c =>
    match SoftPityConfig.normalize { c with Pity := pity } with
    | .error e => .error e
    | .ok c' => .ok ⟨pity, 0, rng, some c'⟩

/-- The cap `0.999999999999` used to keep the ramped probability
strictly below 1. -/
def probCap : ℚ := 999999999999 / 1000000000000

/-- The easing switch inside `effectiveProb` (default branch is
linear). -/
def applyEasing (e : Easing) (t : ℚ) : ℚ :=
  match e with
  | .easeOutQuad => 1 - (1 - t) * (1 - t)
  | .easeInOutCubic =>
    if t < 1/2 then 4 * t * t * t
    else 1 - (-2*t + 2) * (-2*t + 2) * (-2*t + 2) / 2
  | _ => t

/-- `SoftPitySystem.effectiveProb`: hard pity returns 1; no config or
`Count < StartAt` returns `pBase`; otherwise ramp `pBase` toward
`TargetProb` with the configured easing and clamp into `[0, probCap]`. -/
def SoftPitySystem.effectiveProb (s : SoftPitySystem) (pBase : ℚ) : ℚ :=
  if s.Count + 1 ≥ s.Pity then 1
  else
    match s.Soft with
    | none => pBase
    | some cfg =>
      if s.Count < cfg.StartAt then pBase
      else
        let e := s.Pity - 1
        let length : ℚ := ((e - cfg.StartAt : ℤ) : ℚ)
        if length ≤ 0 then pBase
        else
          let t0 := ((s.Count - cfg.StartAt : ℤ) : ℚ) / length
          let t1 := if t0 < 0 then 0 else t0
          let t2 := if t1 > 1 then 1 else t1
          let t3 := applyEasing cfg.Easing t2
          let p := pBase + (cfg.TargetProb - pBase) * t3
          let p1 := if p < 0 then 0 else p
          if p1 > probCap then probCap else p1

/-- `SoftPitySystem.Draw`: hard pity short-circuits (note: no
`Pity <= 0` fallback here, unlike `PitySystem.Draw`); otherwise draw at
the effective probability and update `Count`. -/
def SoftPitySystem.Draw (s : SoftPitySystem) (pBase : ℚ) :
    Bool × Option Err × SoftPitySystem :=
  if s.Count + 1 ≥ s.Pity then
    (true, none, { s with Count := 0 })
  else
    let pEff := s.effectiveProb pBase
    let (hit, err, r') := Gacha.Draw pEff s.RNG
    match err with
    | some e => (false, some e, { s with RNG := r' })
    | none =>
      (hit, none, { s with Count := if hit then 0 else s.Count + 1, RNG := r' })

/-- `BannerOutcome`: the full post-state snapshot returned by a banner
draw. -/
structure BannerOutcome where
  Hit : Bool
  IsUp : Bool
  Count : ℤ
  GuaranteedNext : Bool
  OffStreak : ℤ
deriving DecidableEq, Repr

/-- The zero value `BannerOutcome{}` returned on error paths. -/
def BannerOutcome.empty : BannerOutcome := ⟨false, false, 0, false, 0⟩

/-- `BannerSystem`: the wrapped soft-pity system, the per-streak
off-banner probabilities, the guarantee threshold, and the two streak
fields. -/
structure BannerSystem where
  SoftPity : SoftPitySystem
  OffProbs : List ℚ
  MaxOff : ℤ
  GuaranteedNext : Bool
  OffStreak : ℤ

/-- `math.SmallestNonzeroFloat64 = 2^-1074`. -/
def smallestNonzeroFloat64 : ℚ := 1 / 2 ^ 1074

/-- `NewBannerSystem`: empty `offProbs` defaults to `[0.5]`, entries
outside `(0,1)` are replaced with `0.5`, `maxOff <= 0` defaults to the
list length. -/
def NewBannerSystem (soft : SoftPitySystem) (offProbs : List ℚ) (maxOff : ℤ) :
    BannerSystem :=
  let probs := if offProbs = [] then [(1:ℚ)/2] else offProbs
  let clamped := probs.map (fun p => if p > 0 ∧ p < 1 then p else 1/2)
  let m := if maxOff ≤ 0 then (clamped.length : ℤ) else maxOff
  ⟨soft, clamped, m, false, 0⟩

/-- `BannerSystem.currentOffProb`: index `min(OffStreak, len-1)` into
`OffProbs` (clamping a negative streak to 0, repeating the last entry),
then force the value strictly inside `(0,1)`. -/
def BannerSystem.currentOffProb (b : BannerSystem) : ℚ :=
  if b.OffProbs = [] then 1/2
  else
    let idx0 := if b.OffStreak < 0 then 0 else b.OffStreak
    let idx := if idx0 ≥ (b.OffProbs.length : ℤ) then (b.OffProbs.length : ℤ) - 1 else idx0
    let p := b.OffProbs.getD idx.toNat 0
    if p ≤ 0 then smallestNonzeroFloat64
    else if p ≥ 1 then 1 - 1/10^12
    else p

/-- `BannerSystem.Draw`: delegate the hit decision to the soft-pity
system; on a hit either consume the guarantee (no randomness) or draw
the off/UP decision with `currentOffProb`, updating `OffStreak` and
(when the incremented streak exceeds `MaxOff`) `GuaranteedNext`. -/
def BannerSystem.Draw (b : BannerSystem) (pBase : ℚ) :
    BannerOutcome × Option Err × BannerSystem :=
  let (hit, err, sp') := b.SoftPity.Draw pBase
  match err with
  | some e => (BannerOutcome.empty, some e, { b with SoftPity := sp' })
  | none =>
    if ¬hit then
      (⟨false, false, sp'.Count, b.GuaranteedNext, b.OffStreak⟩, none,
        { b with SoftPity := sp' })
    else if b.GuaranteedNext then
      (⟨true, true, sp'.Count, false, 0⟩, none,
        { b with SoftPity := sp', GuaranteedNext := false, OffStreak := 0 })
    else
      let offP := b.currentOffProb
      let (off, derr, r') := Gacha.Draw offP sp'.RNG
      let sp'' := { sp' with RNG := r' }
      match derr with
      | some e => (BannerOutcome.empty, some e, { b with SoftPity := sp'' })
      | none =>
        if off then
          let os := b.OffStreak + 1
          let g := if os > b.MaxOff then true else b.GuaranteedNext
          (⟨true, false, sp''.Count, g, os⟩, none,
            { b with SoftPity := sp'', GuaranteedNext := g, OffStreak := os })
        else
          (⟨true, true, sp''.Count, false, 0⟩, none,
            { b with SoftPity := sp'', GuaranteedNext := false, OffStreak := 0 })

/-- `TrialGoal`: the three goal strings, plus `other` for any other
string (the Go switch falls through to `return 0, nil`). -/
inductive TrialGoal where
  | firstHit
  | firstUp
  | fixedBudget
  | other
deriving DecidableEq, Repr

/-- `SimParams` from `draw.go`. -/
structure SimParams where
  PBase : ℚ
  Pity : ℤ
  StartAt : Option ℤ
  StartPct : Option ℚ
  TargetProb : Option ℚ
  Easing : Easing
  Cushion : ℤ
  OffProbs : List ℚ
  MaxOff : ℤ

/-- `SimBudget`. -/
structure SimBudget where
  NumDraws : ℤ

/-- `Stats` from `draw.go`. -/
structure Stats where
  Mean : ℚ
  Var : ℚ
  StdDev : ℚ
  P50 : ℚ
  P90 : ℚ
  P99 : ℚ
  Samples : List ℤ
deriving DecidableEq, Repr

/-- The zero value `Stats{}`. -/
def Stats.empty : Stats := ⟨0, 0, 0, 0, 0, 0, []⟩

/-- The percentile closure inside `calcStats`, applied to the sorted
copy `cp`: linear interpolation between order statistics. -/
def percentileOf (cp : List ℤ) (p : ℚ) : ℚ :=
  let n := cp.length
  if n = 1 then ((cp.getD 0 0 : ℤ) : ℚ)
  else if p ≤ 0 then ((cp.getD 0 0 : ℤ) : ℚ)
  else if p ≥ 1 then ((cp.getD (n - 1) 0 : ℤ) : ℚ)
  else
    let pos := p * ((n : ℚ) - 1)
    let i : ℤ := ⌊pos⌋
    let f : ℚ := pos - (i : ℚ)
    if i + 1 ≥ (n : ℤ) then ((cp.getD i.toNat 0 : ℤ) : ℚ)
    else ((cp.getD i.toNat 0 : ℤ) : ℚ) * (1 - f) + ((cp.getD (i.toNat + 1) 0 : ℤ) : ℚ) * f

/-- `calcStats(xs)`: mean, population variance, standard deviation and
interpolated percentiles of the integer samples.  `sqrtFn` stands for
`math.Sqrt`, which has no exact rational counterpart; every property
proved here holds for an arbitrary such function. -/
def calcStats (sqrtFn : ℚ → ℚ) (xs : List ℤ) : Stats :=
  if xs = [] then Stats.empty
  else
    let n := xs.length
    let sum := xs.foldl (fun a v => a + (v : ℚ)) 0
    let mean := sum / (n : ℚ)
    let acc := xs.foldl (fun a v => a + ((v : ℚ) - mean) * ((v : ℚ) - mean)) 0
    let variance := acc / (n : ℚ)
    let stddev := sqrtFn variance
    let cp := List.insertionSort (· ≤ ·) xs
    { Mean := mean, Var := variance, StdDev := stddev,
      P50 := percentileOf cp (50/100), P90 := percentileOf cp (90/100),
      P99 := percentileOf cp (99/100), Samples := xs }

/-- `newSoft(p)`: build the optional ramp config from `SimParams`
(ramp start from `StartAt`, or else from the clamped `StartPct` via
`ceil(pct * pity)` capped at `pity - 1`), construct the system, then
seed the miss counter with the cushion clamped into `[0, pity-1]`. -/
def newSoft (p : SimParams) (rng : Rng) : Except Err SoftPitySystem :=
  let cfg : Option SoftPityConfig :=
    match p.TargetProb with
    | none => none
    | some tp =>
      match p.StartAt, p.StartPct with
      | none, none => none
      | sa, spct =>
        let startAt : ℤ :=
          match sa with
          | some v => v
          | none =>
            let sp0 := spct.getD 0
            let sp1 := if sp0 < 0 then 0 else sp0
            let sp2 := if sp1 > 1 then 1 else sp1
            let st := ⌈sp2 * (p.Pity : ℚ)⌉
            if st ≥ p.Pity then p.Pity - 1 else st
        let easing := if p.Easing = .unspecified then Easing.linear else p.Easing
        some ⟨p.Pity, startAt, tp, easing⟩
  match NewSoftPitySystem p.Pity cfg rng with
  | .error e => .error e
  | .ok sp =>
    let c0 := if p.Cushion < 0 then 0 else p.Cushion
    let c := if c0 ≥ p.Pity then p.Pity - 1 else c0
    .ok { sp with Count := c }

/-- `newBanner`: wrap a banner when `OffProbs` is non-empty. -/
def newBanner (sp : SoftPitySystem) (p : SimParams) : Option BannerSystem :=
  if p.OffProbs = [] then none else some (NewBannerSystem sp p.OffProbs p.MaxOff)

/-- The `GoalFirstHit` draw loop of `simulateOne`, with explicit fuel
standing for the unbounded `for` loop (`none` = fuel exhausted). -/
def firstHitLoop (pBase : ℚ) : ℕ → SoftPitySystem → ℤ → Option (ℤ × Option Err × SoftPitySystem)
  | 0, _, _ => none
  | fuel+1, sp, draws =>
    let draws' := draws + 1
    let (hit, err, sp') := sp.Draw pBase
    match err with
    | some e => some (0, some e, sp')
    | none => if hit then some (draws', none, sp') else firstHitLoop pBase fuel sp' draws'

/-- The `GoalFirstUP` draw loop of `simulateOne` over a banner. -/
def firstUpLoop (pBase : ℚ) : ℕ → BannerSystem → ℤ → Option (ℤ × Option Err × BannerSystem)
  | 0, _, _ => none
  | fuel+1, b, draws =>
    let draws' := draws + 1
    let (out, err, b') := b.Draw pBase
    match err with
    | some e => some (0, some e, b')
    | none =>
      if out.Hit ∧ out.IsUp then some (draws', none, b')
      else firstUpLoop pBase fuel b' draws'

/-- The `GoalFixedBudget` loop without a banner: count hits over a
fixed number of draws. -/
def fixedLoopSoft (pBase : ℚ) : ℕ → SoftPitySystem → ℤ → ℤ × Option Err × SoftPitySystem
  | 0, sp, count => (count, none, sp)
  | n+1, sp, count =>
    let (hit, err, sp') := sp.Draw pBase
    match err with
    | some e => (0, some e, sp')
    | none => fixedLoopSoft pBase n sp' (if hit then count + 1 else count)

/-- The `GoalFixedBudget` loop with a banner: count UPs over a fixed
number of draws. -/
def fixedLoopBanner (pBase : ℚ) : ℕ → BannerSystem → ℤ → ℤ × Option Err × BannerSystem
  | 0, b, count => (count, none, b)
  | n+1, b, count =>
    let (out, err, b') := b.Draw pBase
    match err with
    | some e => (0, some e, b')
    | none => fixedLoopBanner pBase n b' (if out.Hit ∧ out.IsUp then count + 1 else count)

/-- `simulateOne(p, goal, budget)`: construct a fresh engine, then run
the loop selected by the goal.  The engine's `DefaultRNG()` is modelled
by the ambient stream `rng`; the advanced stream is returned. -/
def simulateOne (fuel : ℕ) (p : SimParams) (goal : TrialGoal)
    (budget : Option SimBudget) (rng : Rng) : Option (ℤ × Option Err × Rng) :=
  match newSoft p rng with
  | .error e => some (0, some e, rng)
  | .ok sp =>
    let banner := newBanner sp p
    match goal with
    | .firstHit =>
      match firstHitLoop p.PBase fuel sp 0 with
      | none => none
      | some (v, err, sp') => some (v, err, sp'.RNG)
    | .firstUp =>
      match banner with
      | none =>
        match firstHitLoop p.PBase fuel sp 0 with
        | none => none
        | some (v, err, sp') => some (v, err, sp'.RNG)
      | some b =>
        match firstUpLoop p.PBase fuel b 0 with
        | none => none
        | some (v, err, b') => some (v, err, b'.SoftPity.RNG)
    | .fixedBudget =>
      match budget with
      | none => some (0, none, sp.RNG)
      | some bud =>
        if bud.NumDraws ≤ 0 then some (0, none, sp.RNG)
        else
          match banner with
          | none =>
            let (v, err, sp') := fixedLoopSoft p.PBase bud.NumDraws.toNat sp 0
            some (v, err, sp'.RNG)
          | some b =>
            let (v, err, b') := fixedLoopBanner p.PBase bud.NumDraws.toNat b 0
            some (v, err, b'.SoftPity.RNG)
    | .other => some (0, none, sp.RNG)

/-- The trial loop of `RunMonteCarlo`: run `n` trials, threading the
random stream, stopping at the first error. -/
def mcLoop (fuel : ℕ) (p : SimParams) (goal : TrialGoal) (budget : Option SimBudget) :
    ℕ → Rng → List ℤ → Option (List ℤ × Option Err × Rng)
  | 0, rng, acc => some (acc, none, rng)
  | n+1, rng, acc =>
    match simulateOne fuel p goal budget rng with
    | none => none
    | some (_, some e, rng') => some (acc, some e, rng')
    | some (v, none, rng') => mcLoop fuel p goal budget n rng' (acc ++ [v])

/-- `RunMonteCarlo(p, goal, trials, budget)`: `trials <= 0` yields the
empty stats; a trial error aborts with empty stats and that error;
otherwise aggregate the samples. -/
def RunMonteCarlo (fuel : ℕ) (sqrtFn : ℚ → ℚ) (p : SimParams) (goal : TrialGoal)
    (trials : ℤ) (budget : Option SimBudget) (rng : Rng) : Option (Stats × Option Err) :=
  if trials ≤ 0 then some (Stats.empty, none)
  else
    match mcLoop fuel p goal budget trials.toNat rng [] with
    | none => none
    | some (_, some e, _) => some (Stats.empty, some e)
    | some (samples, none, _) => some (calcStats sqrtFn samples, none)

/-- Iterate `PitySystem.Draw` at probability 0, recording each
`(hit, error)` pair (the loop of the repository's pity test). -/
def iterZero : ℕ → PitySystem → List (Bool × Option Err) × PitySystem
  | 0, ps => ([], ps)
  | k+1, ps =>
    let (h, e, ps') := ps.Draw 0
    let (rest, psf) := iterZero k ps'
    ((h, e) :: rest, psf)

/-- Drive a `PitySystem` through a list of base probabilities,
recording each `(hit, error)` pair. -/
def runPity : List ℚ → PitySystem → List (Bool × Option Err) × PitySystem
  | [], ps => ([], ps)
  | q :: qs, ps =>
    let (h, e, ps') := ps.Draw q
    let (rest, psf) := runPity qs ps'
    ((h, e) :: rest, psf)

/-- Drive a `SoftPitySystem` through a list of base probabilities. -/
def runSoftPity : List ℚ → SoftPitySystem → List (Bool × Option Err) × SoftPitySystem
  | [], s => ([], s)
  | q :: qs, s =>
    let (h, e, s') := s.Draw q
    let (rest, sf) := runSoftPity qs s'
    ((h, e) :: rest, sf)

/-- The observable hard-pity state of a `SoftPitySystem` (the embedded
`PitySystem` fields). -/
def toPity (s : SoftPitySystem) : PitySystem := ⟨s.Pity, s.Count, s.RNG⟩

end Gacha

/-! ## Helper lemmas -/

namespace Gacha

/-- `Draw` on an out-of-range probability: error, no state change. -/
lemma draw_invalid (p : ℚ) (rng : Rng) (h : p < 0 ∨ p > 1) :
    Draw p rng = (false, some .invalidProb, rng) := by
  simp only [Draw, validateProb, if_pos h]

/-- `Draw 0`: always a miss, no randomness consumed. -/
lemma draw_at_zero (rng : Rng) : Draw 0 rng = (false, none, rng) := by
  norm_num [Draw, validateProb]

/-- `Draw 1`: always a hit, no randomness consumed. -/
lemma draw_at_one (rng : Rng) : Draw 1 rng = (true, none, rng) := by
  norm_num [Draw, validateProb]

/-- `Draw` strictly inside `(0,1)`: compare one random value, advance
the cursor by exactly one. -/
lemma draw_mid (p : ℚ) (rng : Rng) (h1 : 0 < p) (h2 : p < 1) :
    Draw p rng = (decide (rng.stream rng.idx < p), none, ⟨rng.stream, rng.idx + 1⟩) := by
  have hv : ¬ (p < 0 ∨ p > 1) := by push_neg; constructor <;> linarith
  simp only [Draw, validateProb, if_neg hv]
  rw [if_neg (by linarith), if_neg (by linarith)]
  rfl

/-- `currentOffProb` always lands strictly inside `(0,1)`. -/
lemma currentOffProb_mem (b : BannerSystem) :
    0 < b.currentOffProb ∧ b.currentOffProb < 1 := by
  simp only [BannerSystem.currentOffProb]
  split_ifs with h1 h2 h3 <;> norm_num [smallestNonzeroFloat64] at *
  all_goals exact ⟨by assumption, by assumption⟩

/-- A `PitySystem.Draw` that reports an error leaves `Count` and `Pity`
as they were. -/
lemma pity_draw_err_state (ps : PitySystem) (p : ℚ) (hit : Bool) (e : Err)
    (ps' : PitySystem) (h : ps.Draw p = (hit, some e, ps')) :
    ps'.Count = ps.Count ∧ ps'.Pity = ps.Pity := by
  unfold PitySystem.Draw at h
  rcases hD : Gacha.Draw p ps.RNG with ⟨h0, err0, r0⟩
  rw [hD] at h
  cases err0 with
  | none =>
    dsimp only at h
    split_ifs at h <;> simp at h
  | some e0 =>
    dsimp only at h
    split_ifs at h
    · simp only [Prod.mk.injEq] at h
      obtain ⟨-, -, h3⟩ := h
      subst h3
      exact ⟨rfl, rfl⟩
    · simp at h
    · simp only [Prod.mk.injEq] at h
      obtain ⟨-, -, h3⟩ := h
      subst h3
      exact ⟨rfl, rfl⟩

/-- A `SoftPitySystem.Draw` that reports an error leaves `Count`,
`Pity` and the ramp config as they were. -/
lemma soft_draw_err_state (s : SoftPitySystem) (p : ℚ) (hit : Bool) (e : Err)
    (s' : SoftPitySystem) (h : s.Draw p = (hit, some e, s')) :
    s'.Count = s.Count ∧ s'.Pity = s.Pity ∧ s'.Soft = s.Soft := by
  unfold SoftPitySystem.Draw at h
  dsimp only at h
  rcases hD : Gacha.Draw (s.effectiveProb p) s.RNG with ⟨h0, err0, r0⟩
  rw [hD] at h
  cases err0 with
  | none =>
    dsimp only at h
    split_ifs at h <;> simp at h
  | some e0 =>
    dsimp only at h
    split_ifs at h
    · simp at h
    · simp only [Prod.mk.injEq] at h
      obtain ⟨-, -, h3⟩ := h
      subst h3
      exact ⟨rfl, rfl, rfl⟩

/-- A `BannerSystem.Draw` that reports an error leaves the miss
counter, the off-streak and the guarantee flag as they were. -/
lemma banner_draw_err_state (b : BannerSystem) (p : ℚ) (out : BannerOutcome) (e : Err)
    (b' : BannerSystem) (h : b.Draw p = (out, some e, b')) :
    b'.SoftPity.Count = b.SoftPity.Count ∧ b'.OffStreak = b.OffStreak ∧
      b'.GuaranteedNext = b.GuaranteedNext := by
  unfold BannerSystem.Draw at h
  rcases hD : b.SoftPity.Draw p with ⟨hit0, err0, sp'⟩
  rw [hD] at h
  dsimp only at h
  cases err0 with
  | some e0 =>
    simp only [Prod.mk.injEq] at h
    obtain ⟨-, -, h3⟩ := h
    subst h3
    exact ⟨(soft_draw_err_state b.SoftPity p hit0 e0 sp' hD).1, rfl, rfl⟩
  | none =>
    dsimp only at h
    rcases hO : Gacha.Draw b.currentOffProb sp'.RNG with ⟨off0, derr0, r0⟩
    rw [hO] at h
    rw [draw_mid _ _ (currentOffProb_mem b).1 (currentOffProb_mem b).2] at hO
    simp only [Prod.mk.injEq] at hO
    obtain ⟨-, hO2, -⟩ := hO
    subst hO2
    dsimp only at h
    split_ifs at h <;> simp at h

/-- Inside the ramp window (`StartAt ≤ Count`, `Count + 1 < Pity`, room
to ramp), `effectiveProb` equals the eased interpolation from `pBase`
toward `TargetProb`, clamped into `[0, probCap]`. -/
lemma effectiveProb_ramp (s : SoftPitySystem) (cfg : SoftPityConfig) (pBase : ℚ)
    (hs : s.Soft = some cfg) (hlt : s.Count + 1 < s.Pity) (hst : cfg.StartAt ≤ s.Count)
    (hroom : cfg.StartAt < s.Pity - 1) :
    s.effectiveProb pBase =
      min probCap (max 0 (pBase + (cfg.TargetProb - pBase) *
        applyEasing cfg.Easing
          (max 0 (min 1 (((s.Count - cfg.StartAt : ℤ) : ℚ) /
            ((s.Pity - 1 - cfg.StartAt : ℤ) : ℚ)))))) := by
  have hlenQ : (0:ℚ) < ((s.Pity - 1 - cfg.StartAt : ℤ) : ℚ) := by
    exact_mod_cast (by omega : (0:ℤ) < s.Pity - 1 - cfg.StartAt)
  set t0 : ℚ := ((s.Count - cfg.StartAt : ℤ) : ℚ) / ((s.Pity - 1 - cfg.StartAt : ℤ) : ℚ) with ht0def
  have ht0 : (0:ℚ) ≤ t0 :=
    div_nonneg (by exact_mod_cast (by omega : (0:ℤ) ≤ s.Count - cfg.StartAt)) hlenQ.le
  have hcl : max 0 (min 1 t0) = if t0 > 1 then 1 else t0 := by
    rcases le_or_lt t0 1 with h|h
    · rw [if_neg (not_lt.mpr h), min_eq_right h, max_eq_right ht0]
    · rw [if_pos h, min_eq_left h.le]
      exact max_eq_right zero_le_one
  have hfin : ∀ q : ℚ,
      (if (if q < 0 then 0 else q) > probCap then probCap else (if q < 0 then 0 else q))
        = min probCap (max 0 q) := by
    intro q
    rcases lt_or_le q 0 with h|h
    · rw [if_pos h, if_neg (by norm_num [probCap]), max_eq_left h.le,
        min_eq_right (by norm_num [probCap])]
    · rw [if_neg (not_lt.mpr h), max_eq_right h]
      rcases le_or_lt q probCap with h2|h2
      · rw [if_neg (not_lt.mpr h2), min_eq_right h2]
      · rw [if_pos h2, min_eq_left h2.le]
  unfold SoftPitySystem.effectiveProb
  rw [if_neg (by omega), hs]
  dsimp only
  rw [if_neg (not_lt.mpr hst), if_neg (not_le.mpr hlenQ), if_neg (not_lt.mpr ht0), hcl,
    hfin (pBase + (cfg.TargetProb - pBase) * applyEasing cfg.Easing (if t0 > 1 then 1 else t0))]

/-- Each easing curve is non-decreasing on `[0,1]`. -/
lemma applyEasing_mono (e : Easing) (t1 t2 : ℚ) (h0 : 0 ≤ t1) (h12 : t1 ≤ t2) (h1 : t2 ≤ 1) :
    applyEasing e t1 ≤ applyEasing e t2 := by
  cases e with
  | linear => simpa [applyEasing] using h12
  | unspecified => simpa [applyEasing] using h12
  | easeOutQuad =>
    simp only [applyEasing]
    nlinarith [mul_nonneg (sub_nonneg.mpr h12) (by linarith : (0:ℚ) ≤ 2 - t1 - t2)]
  | easeInOutCubic =>
    simp only [applyEasing]
    have h0' : (0:ℚ) ≤ t2 := h0.trans h12
    rcases lt_or_le t1 (1/2) with ha|ha <;> rcases lt_or_le t2 (1/2) with hb|hb
    · rw [if_pos ha, if_pos hb]
      nlinarith [mul_nonneg (sub_nonneg.mpr h12)
        (add_nonneg (add_nonneg (mul_self_nonneg t1) (mul_nonneg h0 h0')) (mul_self_nonneg t2))]
    · rw [if_pos ha, if_neg (not_lt.mpr hb)]
      have hA : 4*t1*t1*t1 ≤ 1/2 := by
        nlinarith [mul_nonneg (mul_nonneg h0 h0) (by linarith : (0:ℚ) ≤ 1/2 - t1),
          mul_nonneg (by linarith : (0:ℚ) ≤ 1/2 - t1) (by linarith : (0:ℚ) ≤ 1/2 + t1)]
      have hB : (1:ℚ)/2 ≤ 1 - (-2*t2+2)*(-2*t2+2)*(-2*t2+2)/2 := by
        nlinarith [mul_nonneg (mul_nonneg (by linarith : (0:ℚ) ≤ -2*t2+2)
            (by linarith : (0:ℚ) ≤ -2*t2+2)) (by linarith : (0:ℚ) ≤ 1-(-2*t2+2)),
          mul_nonneg (by linarith : (0:ℚ) ≤ -2*t2+2) (by linarith : (0:ℚ) ≤ 1-(-2*t2+2))]
      linarith
    · linarith
    · rw [if_neg (not_lt.mpr ha), if_neg (not_lt.mpr hb)]
      nlinarith [mul_nonneg (by linarith : (0:ℚ) ≤ (-2*t1+2) - (-2*t2+2))
        (add_nonneg (add_nonneg (mul_self_nonneg (-2*t1+2))
          (mul_nonneg (by linarith : (0:ℚ) ≤ -2*t1+2) (by linarith : (0:ℚ) ≤ -2*t2+2)))
          (mul_self_nonneg (-2*t2+2)))]

end Gacha

/-! ## Claim C4: Draw's edge-case policy -/

namespace Gacha

/-- Counterexample to C4 as stated: at `p = 2 ≥ 1` the claim promises
`hit = true` with no error, but `Draw` reports `hit = false` together
with `ErrInvalidProb` (as the repository's own `TestDrawBounds`
demands). -/
theorem C4_counterexample :
    (Draw 2 ⟨fun _ => (0:ℚ), 0⟩).1 = false ∧
    (Draw 2 ⟨fun _ => (0:ℚ), 0⟩).2.1 = some .invalidProb := by
  constructor <;> decide

/-- C4 (amended): a probability outside `[0,1]` yields `ErrInvalidProb`
with `hit = false` and no randomness consumed; `p = 0` (the only valid
`p ≤ 0`) yields a miss and `p = 1` (the only valid `p ≥ 1`) a hit, both
without consuming randomness; `0 < p < 1` compares exactly one random
value against `p`. -/
theorem C4_draw_policy (p : ℚ) (rng : Rng) :
    (p < 0 ∨ p > 1 → Draw p rng = (false, some .invalidProb, rng)) ∧
    (p = 0 → Draw p rng = (false, none, rng)) ∧
    (p = 1 → Draw p rng = (true, none, rng)) ∧
    (0 < p → p < 1 →
      Draw p rng = (decide (rng.stream rng.idx < p), none, ⟨rng.stream, rng.idx + 1⟩)) := by
  refine ⟨draw_invalid p rng, ?_, ?_, draw_mid p rng⟩
  · rintro rfl; exact draw_at_zero rng
  · rintro rfl; exact draw_at_one rng

/-- Witness for C4 at `p = 2`, `0`, `1`, `1/2`. -/
theorem C4_draw_policy_witness :
    Draw 2 ⟨fun _ => (0:ℚ), 0⟩ = (false, some .invalidProb, ⟨fun _ => (0:ℚ), 0⟩) ∧
    Draw 0 ⟨fun _ => (0:ℚ), 0⟩ = (false, none, ⟨fun _ => (0:ℚ), 0⟩) ∧
    Draw 1 ⟨fun _ => (0:ℚ), 0⟩ = (true, none, ⟨fun _ => (0:ℚ), 0⟩) ∧
    Draw (1/2) ⟨fun _ => (0:ℚ), 0⟩ = (true, none, ⟨fun _ => (0:ℚ), 1⟩) := by
  refine ⟨(C4_draw_policy 2 _).1 (by norm_num), (C4_draw_policy 0 _).2.1 rfl,
    (C4_draw_policy 1 _).2.2.1 rfl, ?_⟩
  have h := (C4_draw_policy (1/2) ⟨fun _ => (0:ℚ), 0⟩).2.2.2 (by norm_num) (by norm_num)
  rw [h]
  norm_num

end Gacha

/-! ## Claim C5: hard pity forces the Nth draw -/

namespace Gacha

/-- A pity draw at `p = 0` below the threshold is a miss that
increments the counter and touches nothing else. -/
lemma pity_draw_zero_miss (ps : PitySystem) (h1 : 0 < ps.Pity)
    (h2 : ps.Count + 1 < ps.Pity) :
    ps.Draw 0 = (false, none, { ps with Count := ps.Count + 1 }) := by
  simp only [PitySystem.Draw, if_neg (by omega : ¬ ps.Pity ≤ 0),
    if_neg (by omega : ¬ ps.Count + 1 ≥ ps.Pity), draw_at_zero]
  simp

/-- Running `k` draws at `p = 0` below the threshold yields `k` misses
and a counter advanced by `k`. -/
lemma iterZero_misses (k : ℕ) :
    ∀ ps : PitySystem, 0 < ps.Pity → ps.Count + (k : ℤ) < ps.Pity →
      iterZero k ps = (List.replicate k (false, none), { ps with Count := ps.Count + (k : ℤ) }) := by
  induction k with
  | zero => intro ps h1 h2; simp [iterZero]
  | succ n ih =>
    intro ps h1 h2
    rw [iterZero, pity_draw_zero_miss ps h1 (by push_cast at h2; omega)]
    dsimp only
    rw [ih { ps with Count := ps.Count + 1 } h1
      (by show ps.Count + 1 + (n : ℤ) < ps.Pity; push_cast at h2; omega)]
    simp [List.replicate_succ]
    ring

/-- C5: for a `PitySystem` with threshold `N ≥ 1` starting at
`Count = 0`, the first `N-1` draws at `p = 0` are all misses with no
error, leaving `Count = N-1` and the source untouched; the `N`th draw is
a forced hit with no randomness consumed, after which `Count = 0`. -/
theorem C5_pity_forces_nth (N : ℕ) (rng : Rng) (hN : 1 ≤ N) :
    (iterZero (N - 1) ⟨(N : ℤ), 0, rng⟩).1 = List.replicate (N - 1) (false, none) ∧
    (iterZero (N - 1) ⟨(N : ℤ), 0, rng⟩).2 = ⟨(N : ℤ), (N : ℤ) - 1, rng⟩ ∧
    PitySystem.Draw ⟨(N : ℤ), (N : ℤ) - 1, rng⟩ 0 = (true, none, ⟨(N : ℤ), 0, rng⟩) := by
  have h := iterZero_misses (N - 1) ⟨(N : ℤ), 0, rng⟩
    (by show (0 : ℤ) < (N : ℤ); omega)
    (by show (0 : ℤ) + ((N - 1 : ℕ) : ℤ) < (N : ℤ); omega)
  have hcast : (0 : ℤ) + ((N - 1 : ℕ) : ℤ) = (N : ℤ) - 1 := by omega
  refine ⟨by rw [h], by rw [h]; simp only [hcast], ?_⟩
  simp only [PitySystem.Draw, if_neg (by omega : ¬ (N : ℤ) ≤ 0),
    if_pos (by omega : (N : ℤ) - 1 + 1 ≥ (N : ℤ))]

/-- Witness for C5 at the spec's concrete instance `pity = 10`. -/
theorem C5_pity_forces_nth_witness :
    (iterZero 9 ⟨10, 0, ⟨fun _ => (0:ℚ), 0⟩⟩).1 = List.replicate 9 (false, none) ∧
    (iterZero 9 ⟨10, 0, ⟨fun _ => (0:ℚ), 0⟩⟩).2 = ⟨10, 9, ⟨fun _ => (0:ℚ), 0⟩⟩ ∧
    PitySystem.Draw ⟨10, 9, ⟨fun _ => (0:ℚ), 0⟩⟩ 0 = (true, none, ⟨10, 0, ⟨fun _ => (0:ℚ), 0⟩⟩) :=
  C5_pity_forces_nth 10 ⟨fun _ => (0:ℚ), 0⟩ (by norm_num)

end Gacha

/-! ## Claim C2: the soft-pity ramp formula -/

namespace Gacha

/-- C2: with a ramp configured and the hard cap not reached, the
effective probability is `pBase` before `StartAt`, and from `StartAt`
on it is the eased interpolation
`pBase + (TargetProb - pBase) * ease(clamp((Count - StartAt)/(Pity-1-StartAt), 0, 1))`
clamped into `[0, probCap]`, `probCap < 1`; the three easing curves are
linear `t`, easeOutQuad `1-(1-t)^2`, easeInOutCubic
`4t^3` / `1-(-2t+2)^3/2`; and a draw at `Count + 1 ≥ Pity` is a forced
hit bypassing the ramp, consuming no randomness. -/
theorem C2_effective_prob (s : SoftPitySystem) (cfg : SoftPityConfig) (pBase : ℚ)
    (hs : s.Soft = some cfg) (hroom : cfg.StartAt < s.Pity - 1) :
    (s.Count + 1 < s.Pity → s.Count < cfg.StartAt → s.effectiveProb pBase = pBase) ∧
    (s.Count + 1 < s.Pity → cfg.StartAt ≤ s.Count →
      s.effectiveProb pBase =
        min probCap (max 0 (pBase + (cfg.TargetProb - pBase) *
          applyEasing cfg.Easing
            (max 0 (min 1 (((s.Count - cfg.StartAt : ℤ) : ℚ) /
              ((s.Pity - 1 - cfg.StartAt : ℤ) : ℚ))))))) ∧
    (probCap < 1) ∧
    (∀ t : ℚ, applyEasing .linear t = t) ∧
    (∀ t : ℚ, applyEasing .easeOutQuad t = 1 - (1 - t) * (1 - t)) ∧
    (∀ t : ℚ, applyEasing .easeInOutCubic t =
      if t < 1/2 then 4 * t * t * t
      else 1 - (-2*t + 2) * (-2*t + 2) * (-2*t + 2) / 2) ∧
    (s.Count + 1 ≥ s.Pity → s.Draw pBase = (true, none, { s with Count := 0 })) := by
  refine ⟨?_, ?_, by norm_num [probCap], fun _ => rfl, fun _ => rfl, fun _ => rfl, ?_⟩
  · intro h1 h2
    unfold SoftPitySystem.effectiveProb
    rw [if_neg (by omega), hs]
    dsimp only
    rw [if_pos h2]
  · intro h1 h2
    exact effectiveProb_ramp s cfg pBase hs h1 h2 hroom
  · intro h
    unfold SoftPitySystem.Draw
    rw [if_pos h]

/-- Witness for C2 at `pity = 10`, `StartAt = 4`, `target = 1/2`,
`pBase = 3/100`, at counts 2 (pre-ramp), 6 (in ramp) and 9 (hard
pity). -/
theorem C2_effective_prob_witness :
    SoftPitySystem.effectiveProb
        ⟨10, 2, ⟨fun _ => (0:ℚ), 0⟩, some ⟨10, 4, 1/2, .linear⟩⟩ (3/100) = 3/100 ∧
    SoftPitySystem.effectiveProb
        ⟨10, 6, ⟨fun _ => (0:ℚ), 0⟩, some ⟨10, 4, 1/2, .linear⟩⟩ (3/100) =
      min probCap (max 0 ((3:ℚ)/100 + ((1:ℚ)/2 - 3/100) *
        applyEasing .linear (max 0 (min 1 (((6 - 4 : ℤ) : ℚ) / ((10 - 1 - 4 : ℤ) : ℚ)))))) ∧
    SoftPitySystem.Draw ⟨10, 9, ⟨fun _ => (0:ℚ), 0⟩, some ⟨10, 4, 1/2, .linear⟩⟩ (3/100) =
      (true, none, ⟨10, 0, ⟨fun _ => (0:ℚ), 0⟩, some ⟨10, 4, 1/2, .linear⟩⟩) := by
  refine ⟨(C2_effective_prob _ ⟨10, 4, 1/2, .linear⟩ (3/100) rfl (by norm_num)).1
      (by norm_num) (by norm_num),
    (C2_effective_prob _ ⟨10, 4, 1/2, .linear⟩ (3/100) rfl (by norm_num)).2.1
      (by norm_num) (by norm_num),
    (C2_effective_prob _ ⟨10, 4, 1/2, .linear⟩ (3/100) rfl (by norm_num)).2.2.2.2.2.2
      (by norm_num)⟩

end Gacha

/-! ## Claim C3: ramp monotonicity -/

namespace Gacha

/-- Counterexample to C3 as stated: with the valid config `pity = 3`,
`rampStart = 0`, `target = 1/2`, linear easing, and `pBase = 9/10`
(in `[0,1]` but above the target), the effective probability
*decreases* from miss-streak 0 to miss-streak 1 inside
`[rampStart, pity-1]`. -/
theorem C3_counterexample :
    ¬ (SoftPitySystem.effectiveProb ⟨3, 0, ⟨fun _ => (0:ℚ), 0⟩, some ⟨3, 0, 1/2, .linear⟩⟩ (9/10) ≤
       SoftPitySystem.effectiveProb ⟨3, 1, ⟨fun _ => (0:ℚ), 0⟩, some ⟨3, 0, 1/2, .linear⟩⟩ (9/10)) := by
  norm_num [SoftPitySystem.effectiveProb, applyEasing, probCap]

/-- C3 (amended): for every valid soft-pity configuration and every
base probability `pBase ∈ [0, targetProb]` (for `pBase > targetProb`
the ramp interpolates downward and monotonicity fails, see the
counterexample), the effective probability is non-decreasing in the
miss-streak across `[rampStart, pity-1]`, and equals `pBase` for every
miss-streak below `rampStart`. -/
theorem C3_ramp_monotone (P S : ℤ) (T pBase : ℚ) (e : Easing) (rng : Rng)
    (hS0 : 0 ≤ S) (hroom : S < P - 1) (hT0 : 0 < T) (hT1 : T < 1)
    (hp0 : 0 ≤ pBase) (hpT : pBase ≤ T) :
    (∀ m1 m2 : ℤ, S ≤ m1 → m1 ≤ m2 → m2 ≤ P - 1 →
      SoftPitySystem.effectiveProb ⟨P, m1, rng, some ⟨P, S, T, e⟩⟩ pBase ≤
        SoftPitySystem.effectiveProb ⟨P, m2, rng, some ⟨P, S, T, e⟩⟩ pBase) ∧
    (∀ m : ℤ, m < S →
      SoftPitySystem.effectiveProb ⟨P, m, rng, some ⟨P, S, T, e⟩⟩ pBase = pBase) := by
  constructor
  · intro m1 m2 hm1 hm12 hm2
    by_cases hm2e : P ≤ m2 + 1
    · have h2 : SoftPitySystem.effectiveProb ⟨P, m2, rng, some ⟨P, S, T, e⟩⟩ pBase = 1 := by
        unfold SoftPitySystem.effectiveProb
        rw [if_pos (by simpa using hm2e)]
      rw [h2]
      by_cases hm1e : P ≤ m1 + 1
      · unfold SoftPitySystem.effectiveProb
        rw [if_pos (by simpa using hm1e)]
      · rw [effectiveProb_ramp _ ⟨P, S, T, e⟩ pBase rfl (by simpa using not_le.mp hm1e)
          (by simpa using hm1) (by simpa using hroom)]
        exact (min_le_left _ _).trans (by norm_num [probCap])
    · have hm1e : m1 + 1 < P := by omega
      rw [effectiveProb_ramp _ ⟨P, S, T, e⟩ pBase rfl (by simpa using hm1e)
          (by simpa using hm1) (by simpa using hroom),
        effectiveProb_ramp _ ⟨P, S, T, e⟩ pBase rfl (by simpa using not_le.mp hm2e)
          (by simpa using hm1.trans hm12) (by simpa using hroom)]
      dsimp only
      have hL : (0:ℚ) < ((P - 1 - S : ℤ) : ℚ) := by
        exact_mod_cast (by omega : (0:ℤ) < P - 1 - S)
      have ht : ((m1 - S : ℤ) : ℚ) / ((P - 1 - S : ℤ) : ℚ) ≤
          ((m2 - S : ℤ) : ℚ) / ((P - 1 - S : ℤ) : ℚ) := by
        have hnum : ((m1 - S : ℤ) : ℚ) ≤ ((m2 - S : ℤ) : ℚ) := by
          exact_mod_cast (by omega : (m1 - S : ℤ) ≤ m2 - S)
        exact (div_le_div_right hL).mpr hnum
      have hclm : max 0 (min 1 (((m1 - S : ℤ) : ℚ) / ((P - 1 - S : ℤ) : ℚ))) ≤
          max 0 (min 1 (((m2 - S : ℤ) : ℚ) / ((P - 1 - S : ℤ) : ℚ))) :=
        max_le_max le_rfl (min_le_min le_rfl ht)
      have hcb0 : (0:ℚ) ≤ max 0 (min 1 (((m1 - S : ℤ) : ℚ) / ((P - 1 - S : ℤ) : ℚ))) :=
        le_max_left _ _
      have hcb1 : max 0 (min 1 (((m2 - S : ℤ) : ℚ) / ((P - 1 - S : ℤ) : ℚ))) ≤ 1 :=
        max_le zero_le_one (min_le_left _ _)
      have he := applyEasing_mono e _ _ hcb0 hclm hcb1
      have hint := add_le_add_left (mul_le_mul_of_nonneg_left he (by linarith : (0:ℚ) ≤ T - pBase)) pBase
      exact min_le_min le_rfl (max_le_max le_rfl hint)
  · intro m hm
    unfold SoftPitySystem.effectiveProb
    rw [if_neg (by simp only; omega)]
    dsimp only
    rw [if_pos (by simpa using hm)]

/-- Witness for C3 at `pity = 10`, `rampStart = 4`, `target = 1/2`,
`pBase = 3/100`, miss-streaks 5 ≤ 7 and pre-ramp streak 2. -/
theorem C3_ramp_monotone_witness :
    (SoftPitySystem.effectiveProb ⟨10, 5, ⟨fun _ => (0:ℚ), 0⟩, some ⟨10, 4, 1/2, .linear⟩⟩ (3/100) ≤
      SoftPitySystem.effectiveProb ⟨10, 7, ⟨fun _ => (0:ℚ), 0⟩, some ⟨10, 4, 1/2, .linear⟩⟩ (3/100)) ∧
    SoftPitySystem.effectiveProb ⟨10, 2, ⟨fun _ => (0:ℚ), 0⟩, some ⟨10, 4, 1/2, .linear⟩⟩ (3/100)
      = 3/100 :=
  ⟨(C3_ramp_monotone 10 4 (1/2) (3/100) .linear ⟨fun _ => (0:ℚ), 0⟩ (by norm_num) (by norm_num)
      (by norm_num) (by norm_num) (by norm_num) (by norm_num)).1 5 7 (by norm_num) (by norm_num)
      (by norm_num),
   (C3_ramp_monotone 10 4 (1/2) (3/100) .linear ⟨fun _ => (0:ℚ), 0⟩ (by norm_num) (by norm_num)
      (by norm_num) (by norm_num) (by norm_num) (by norm_num)).2 2 (by norm_num)⟩

end Gacha

/-! ## Claim C1: the banner's UP/off decision on a hit -/

namespace Gacha

/-- When the off-streak is non-negative and every configured off
probability lies in `(0,1)` (as the constructor guarantees),
`currentOffProb` is exactly `OffProbs[min(OffStreak, len-1)]`. -/
lemma currentOffProb_eq_get (b : BannerSystem) (hne : b.OffProbs ≠ [])
    (hos : 0 ≤ b.OffStreak) (hmem : ∀ q ∈ b.OffProbs, 0 < q ∧ q < 1) :
    b.currentOffProb = b.OffProbs.getD (min b.OffStreak.toNat (b.OffProbs.length - 1)) 0 := by
  have hlen : 0 < b.OffProbs.length := List.length_pos.mpr hne
  have hval : ∀ i : ℕ, i < b.OffProbs.length →
      (0 < b.OffProbs.getD i 0 ∧ b.OffProbs.getD i 0 < 1) := by
    intro i hi
    rw [List.getD_eq_getElem b.OffProbs 0 hi]
    exact hmem _ (List.getElem_mem hi)
  unfold BannerSystem.currentOffProb
  rw [if_neg hne]
  dsimp only
  rw [if_neg (not_lt.mpr hos)]
  by_cases hge : b.OffStreak ≥ (b.OffProbs.length : ℤ)
  · rw [if_pos hge]
    have h1 : ((b.OffProbs.length : ℤ) - 1).toNat = b.OffProbs.length - 1 := by omega
    have h2 : min b.OffStreak.toNat (b.OffProbs.length - 1) = b.OffProbs.length - 1 := by omega
    rw [h1, h2]
    obtain ⟨hq0, hq1⟩ := hval (b.OffProbs.length - 1) (by omega)
    rw [if_neg (not_le.mpr hq0), if_neg (not_le.mpr hq1)]
  · rw [if_neg hge]
    have h2 : min b.OffStreak.toNat (b.OffProbs.length - 1) = b.OffStreak.toNat := by omega
    rw [h2]
    obtain ⟨hq0, hq1⟩ := hval b.OffStreak.toNat (by omega)
    rw [if_neg (not_le.mpr hq0), if_neg (not_le.mpr hq1)]

/-- C1: when the wrapped draw resolves as a hit — if `guaranteedNext`
is set, the result is UP, no randomness is consumed for the decision,
the flag is cleared, and the off-streak resets; otherwise one random
value decides "off" with probability `offProbs[min(offStreak, len-1)]`:
on off the streak increments, the hit stays off-banner, and
`guaranteedNext` becomes set exactly when the incremented streak
exceeds `maxOff` (equality does not set it); on UP the streak resets
and the flag clears. -/
theorem C1_banner_hit_decision :
    (∀ (b : BannerSystem) (pBase : ℚ) (sp' : SoftPitySystem),
      b.SoftPity.Draw pBase = (true, none, sp') → b.GuaranteedNext = true →
        b.Draw pBase = (⟨true, true, sp'.Count, false, 0⟩, none,
          { b with SoftPity := sp', GuaranteedNext := false, OffStreak := 0 })) ∧
    (∀ (b : BannerSystem) (pBase : ℚ) (sp' : SoftPitySystem),
      b.SoftPity.Draw pBase = (true, none, sp') → b.GuaranteedNext = false →
      0 ≤ b.OffStreak → b.OffProbs ≠ [] → (∀ q ∈ b.OffProbs, 0 < q ∧ q < 1) →
      ((sp'.RNG.stream sp'.RNG.idx <
          b.OffProbs.getD (min b.OffStreak.toNat (b.OffProbs.length - 1)) 0 →
        b.Draw pBase = (⟨true, false, sp'.Count, decide (b.OffStreak + 1 > b.MaxOff),
            b.OffStreak + 1⟩, none,
          { b with
            SoftPity := { sp' with RNG := ⟨sp'.RNG.stream, sp'.RNG.idx + 1⟩ }
            GuaranteedNext := decide (b.OffStreak + 1 > b.MaxOff)
            OffStreak := b.OffStreak + 1 })) ∧
       (¬ sp'.RNG.stream sp'.RNG.idx <
          b.OffProbs.getD (min b.OffStreak.toNat (b.OffProbs.length - 1)) 0 →
        b.Draw pBase = (⟨true, true, sp'.Count, false, 0⟩, none,
          { b with
            SoftPity := { sp' with RNG := ⟨sp'.RNG.stream, sp'.RNG.idx + 1⟩ }
            GuaranteedNext := false
            OffStreak := 0 })))) := by
  constructor
  · intro b pBase sp' hD hg
    unfold BannerSystem.Draw
    rw [hD]
    dsimp only
    rw [hg]
    simp
  · intro b pBase sp' hD hg hos hne hmem
    have hq := currentOffProb_eq_get b hne hos hmem
    have hbounds := currentOffProb_mem b
    constructor
    · intro hu
      unfold BannerSystem.Draw
      rw [hD]
      dsimp only
      rw [hg]
      simp only [Bool.false_eq_true, if_false, Bool.not_true, reduceIte]
      rw [draw_mid _ _ hbounds.1 hbounds.2, hq]
      dsimp only
      rw [decide_eq_true hu]
      by_cases hmo : b.OffStreak + 1 > b.MaxOff
      · simp [hmo]
      · simp [hmo]
    · intro hu
      unfold BannerSystem.Draw
      rw [hD]
      dsimp only
      rw [hg]
      simp only [Bool.false_eq_true, if_false, Bool.not_true, reduceIte]
      rw [draw_mid _ _ hbounds.1 hbounds.2, hq]
      dsimp only
      rw [decide_eq_false hu]
      simp

/-- Witness for C1, part 1 at a guaranteed banner and part 2 (off
branch) at an unguaranteed banner whose next random value is 0. -/
theorem C1_banner_hit_decision_witness :
    BannerSystem.Draw ⟨⟨1, 0, ⟨fun _ => (0:ℚ), 0⟩, none⟩, [1/2], 1, true, 0⟩ (1/4) =
      (⟨true, true, 0, false, 0⟩, none,
        ⟨⟨1, 0, ⟨fun _ => (0:ℚ), 0⟩, none⟩, [1/2], 1, false, 0⟩) ∧
    BannerSystem.Draw ⟨⟨1, 0, ⟨fun _ => (0:ℚ), 0⟩, none⟩, [1/2], 1, false, 0⟩ (1/4) =
      (⟨true, false, 0, decide ((0:ℤ) + 1 > 1), (0:ℤ) + 1⟩, none,
        ⟨⟨1, 0, ⟨fun _ => (0:ℚ), 1⟩, none⟩, [1/2], 1, decide ((0:ℤ) + 1 > 1), (0:ℤ) + 1⟩) := by
  constructor
  · exact C1_banner_hit_decision.1 ⟨⟨1, 0, ⟨fun _ => (0:ℚ), 0⟩, none⟩, [1/2], 1, true, 0⟩
      (1/4) ⟨1, 0, ⟨fun _ => (0:ℚ), 0⟩, none⟩ (by rfl) rfl
  · exact (C1_banner_hit_decision.2 ⟨⟨1, 0, ⟨fun _ => (0:ℚ), 0⟩, none⟩, [1/2], 1, false, 0⟩
      (1/4) ⟨1, 0, ⟨fun _ => (0:ℚ), 0⟩, none⟩ (by rfl) rfl
      (by norm_num) (by simp) (by intro q hq; simp at hq; subst hq; norm_num)).1
      (by norm_num [List.getD])

end Gacha

/-! ## Claim C6: SoftPitySystem without a ramp refines PitySystem -/

namespace Gacha

/-- One draw of a ramp-less `SoftPitySystem` with positive pity agrees
with the corresponding `PitySystem` draw: same outcome, same error,
same post `PitySystem` state, and the system stays ramp-less with the
same threshold. -/
lemma soft_nil_step (s : SoftPitySystem) (q : ℚ) (hs : s.Soft = none) (hp : 0 < s.Pity) :
    (s.Draw q).1 = ((toPity s).Draw q).1 ∧
    (s.Draw q).2.1 = ((toPity s).Draw q).2.1 ∧
    toPity (s.Draw q).2.2 = ((toPity s).Draw q).2.2 ∧
    (s.Draw q).2.2.Soft = none ∧ 0 < (s.Draw q).2.2.Pity := by
  unfold SoftPitySystem.Draw PitySystem.Draw toPity
  dsimp only
  by_cases hc : s.Count + 1 ≥ s.Pity
  · rw [if_pos hc, if_pos hc, if_neg (by omega : ¬ s.Pity ≤ 0)]
    exact ⟨rfl, rfl, rfl, hs, hp⟩
  · rw [if_neg hc, if_neg hc, if_neg (by omega : ¬ s.Pity ≤ 0)]
    have he : s.effectiveProb q = q := by
      unfold SoftPitySystem.effectiveProb
      rw [if_neg hc, hs]
    rw [he]
    rcases hD : Gacha.Draw q s.RNG with ⟨h0, e0, r0⟩
    cases e0 <;> dsimp only <;> exact ⟨rfl, rfl, rfl, hs, hp⟩

/-- Counterexample to C6 as stated: at `pity = 0` a `PitySystem`
degrades to plain `Draw` (a miss at `p = 0`), while `SoftPitySystem`,
whose `Draw` lacks the `Pity <= 0` fallback, force-hits every draw. -/
theorem C6_counterexample :
    (SoftPitySystem.Draw ⟨0, 0, ⟨fun _ => (0:ℚ), 0⟩, none⟩ 0).1 = true ∧
    (PitySystem.Draw ⟨0, 0, ⟨fun _ => (0:ℚ), 0⟩⟩ 0).1 = false := by
  constructor <;> decide

/-- C6 (amended): for `pity ≥ 1`, a `SoftPitySystem` constructed with
no soft config produces, draw by draw, exactly the same outcomes,
errors and miss-streak counters as a plain `PitySystem` with the same
pity; for `pity ≤ 0` the two diverge (the pity system degrades to
plain `Draw`, the soft system forces a hit on every draw). -/
theorem C6_soft_refines_pity (qs : List ℚ) (s : SoftPitySystem)
    (hs : s.Soft = none) (hp : 0 < s.Pity) :
    (runSoftPity qs s).1 = (runPity qs (toPity s)).1 ∧
    toPity (runSoftPity qs s).2 = (runPity qs (toPity s)).2 := by
  induction qs generalizing s with
  | nil => exact ⟨rfl, rfl⟩
  | cons q qs ih =>
    obtain ⟨e1, e2, e3, e4, e5⟩ := soft_nil_step s q hs hp
    rw [runSoftPity, runPity]
    rcases hS : s.Draw q with ⟨h1, er1, s1⟩
    rcases hP : (toPity s).Draw q with ⟨h2, er2, p2⟩
    rw [hS, hP] at e1 e2 e3
    rw [hS] at e4 e5
    dsimp only at e1 e2 e3 e4 e5
    dsimp only
    obtain ⟨f1, f2⟩ := ih s1 e4 e5
    refine ⟨?_, ?_⟩
    · rw [e1, e2, f1, e3]
    · rw [f2, e3]

/-- Witness for C6 on the draw sequence `[0, 1]` with `pity = 2`. -/
theorem C6_soft_refines_pity_witness :
    (runSoftPity [0, 1] ⟨2, 0, ⟨fun _ => (0:ℚ), 0⟩, none⟩).1 =
      (runPity [0, 1] (toPity ⟨2, 0, ⟨fun _ => (0:ℚ), 0⟩, none⟩)).1 ∧
    toPity (runSoftPity [0, 1] ⟨2, 0, ⟨fun _ => (0:ℚ), 0⟩, none⟩).2 =
      (runPity [0, 1] (toPity ⟨2, 0, ⟨fun _ => (0:ℚ), 0⟩, none⟩)).2 :=
  C6_soft_refines_pity [0, 1] ⟨2, 0, ⟨fun _ => (0:ℚ), 0⟩, none⟩ rfl (by norm_num)

end Gacha

/-! ## Claim C7: the miss-streak invariant -/

namespace Gacha

/-- A successfully constructed `SoftPitySystem` carries the requested
threshold and a zero miss counter. -/
lemma newSoftPity_ok_shape (pity : ℤ) (cfg : Option SoftPityConfig) (rng : Rng)
    (sp0 : SoftPitySystem) (h : NewSoftPitySystem pity cfg rng = .ok sp0) :
    sp0.Pity = pity ∧ sp0.Count = 0 := by
  unfold NewSoftPitySystem at h
  cases cfg with
  | none =>
    simp only [Except.ok.injEq] at h
    subst h
    exact ⟨rfl, rfl⟩
  | some c =>
    dsimp only at h
    cases hn : SoftPityConfig.normalize { c with Pity := pity } with
    | error e => rw [hn] at h; simp at h
    | ok c' =>
      rw [hn] at h
      simp only [Except.ok.injEq] at h
      subst h
      exact ⟨rfl, rfl⟩

/-- C7: for pity ≥ 1 the invariant `0 ≤ Count < Pity` is preserved by
every `PitySystem.Draw` and `SoftPitySystem.Draw` call; a draw at
`Count + 1 = Pity` is a forced hit (no randomness, no error) resetting
the counter; and the simulator's cushion seeding establishes the
invariant. -/
theorem C7_missStreak_invariant :
    (∀ (ps : PitySystem) (p : ℚ), 0 < ps.Pity → 0 ≤ ps.Count → ps.Count < ps.Pity →
      0 ≤ (ps.Draw p).2.2.Count ∧ (ps.Draw p).2.2.Count < ps.Pity) ∧
    (∀ (ps : PitySystem) (p : ℚ), 0 < ps.Pity → ps.Count + 1 = ps.Pity →
      ps.Draw p = (true, none, { ps with Count := 0 })) ∧
    (∀ (s : SoftPitySystem) (p : ℚ), 0 < s.Pity → 0 ≤ s.Count → s.Count < s.Pity →
      0 ≤ (s.Draw p).2.2.Count ∧ (s.Draw p).2.2.Count < s.Pity) ∧
    (∀ (s : SoftPitySystem) (p : ℚ), s.Count + 1 = s.Pity →
      s.Draw p = (true, none, { s with Count := 0 })) ∧
    (∀ (pp : SimParams) (rng : Rng) (sp : SoftPitySystem),
      0 < pp.Pity → newSoft pp rng = .ok sp → 0 ≤ sp.Count ∧ sp.Count < sp.Pity) := by
  refine ⟨?_, ?_, ?_, ?_, ?_⟩
  · intro ps p h1 h2 h3
    unfold PitySystem.Draw
    rw [if_neg (by omega : ¬ ps.Pity ≤ 0)]
    by_cases hc : ps.Count + 1 ≥ ps.Pity
    · rw [if_pos hc]
      constructor <;> dsimp only <;> omega
    · rw [if_neg hc]
      rcases hD : Gacha.Draw p ps.RNG with ⟨h0, e0, r0⟩
      cases e0 <;> dsimp only
      · constructor <;> split_ifs <;> omega
      · constructor <;> omega
  · intro ps p h1 h2
    unfold PitySystem.Draw
    rw [if_neg (by omega : ¬ ps.Pity ≤ 0), if_pos (by omega : ps.Count + 1 ≥ ps.Pity)]
  · intro s p h1 h2 h3
    unfold SoftPitySystem.Draw
    by_cases hc : s.Count + 1 ≥ s.Pity
    · rw [if_pos hc]
      constructor <;> dsimp only <;> omega
    · rw [if_neg hc]
      dsimp only
      rcases hD : Gacha.Draw (s.effectiveProb p) s.RNG with ⟨h0, e0, r0⟩
      cases e0 <;> dsimp only
      · constructor <;> split_ifs <;> omega
      · constructor <;> omega
  · intro s p h1
    unfold SoftPitySystem.Draw
    rw [if_pos (by omega : s.Count + 1 ≥ s.Pity)]
  · intro pp rng sp h1 h2
    unfold newSoft at h2
    dsimp only at h2
    split at h2
    · simp at h2
    · rename_i sp0 heq
      simp only [Except.ok.injEq] at h2
      subst h2
      have hsh := newSoftPity_ok_shape _ _ _ _ heq
      have hp := hsh.1
      constructor <;> dsimp only <;> split_ifs <;> omega

/-- Witness for C7 at `pity = 3` (in-range draw, boundary draw, soft
variants, and a cushion of 7 clamped to 2). -/
theorem C7_missStreak_invariant_witness :
    (0 ≤ ((⟨3, 1, ⟨fun _ => (0:ℚ), 0⟩⟩ : PitySystem).Draw (1/2)).2.2.Count ∧
      ((⟨3, 1, ⟨fun _ => (0:ℚ), 0⟩⟩ : PitySystem).Draw (1/2)).2.2.Count < 3) ∧
    PitySystem.Draw ⟨3, 2, ⟨fun _ => (0:ℚ), 0⟩⟩ (1/2) =
      (true, none, ⟨3, 0, ⟨fun _ => (0:ℚ), 0⟩⟩) ∧
    (0 ≤ ((⟨3, 1, ⟨fun _ => (0:ℚ), 0⟩, none⟩ : SoftPitySystem).Draw (1/2)).2.2.Count ∧
      ((⟨3, 1, ⟨fun _ => (0:ℚ), 0⟩, none⟩ : SoftPitySystem).Draw (1/2)).2.2.Count < 3) ∧
    SoftPitySystem.Draw ⟨3, 2, ⟨fun _ => (0:ℚ), 0⟩, none⟩ (1/2) =
      (true, none, ⟨3, 0, ⟨fun _ => (0:ℚ), 0⟩, none⟩) ∧
    (0 ≤ (⟨3, 2, ⟨fun _ => (0:ℚ), 0⟩, none⟩ : SoftPitySystem).Count ∧
      (⟨3, 2, ⟨fun _ => (0:ℚ), 0⟩, none⟩ : SoftPitySystem).Count <
        (⟨3, 2, ⟨fun _ => (0:ℚ), 0⟩, none⟩ : SoftPitySystem).Pity) := by
  refine ⟨C7_missStreak_invariant.1 _ (1/2) (by norm_num) (by norm_num) (by norm_num),
    C7_missStreak_invariant.2.1 _ (1/2) (by norm_num) (by norm_num),
    C7_missStreak_invariant.2.2.1 _ (1/2) (by norm_num) (by norm_num) (by norm_num),
    C7_missStreak_invariant.2.2.2.1 _ (1/2) (by norm_num),
    C7_missStreak_invariant.2.2.2.2 ⟨1/2, 3, none, none, none, .unspecified, 7, [], 0⟩
      ⟨fun _ => (0:ℚ), 0⟩ _ (by norm_num) (by rfl)⟩

end Gacha

/-! ## Claims C8 and C9: the Monte Carlo runner -/

namespace Gacha

/-- A trial whose engine construction fails reports that error at once,
running no draw loop. -/
lemma simulateOne_err (fuel : ℕ) (p : SimParams) (goal : TrialGoal)
    (budget : Option SimBudget) (rng : Rng) (e : Err) (h : newSoft p rng = .error e) :
    simulateOne fuel p goal budget rng = some (0, some e, rng) := by
  unfold simulateOne
  rw [h]

/-- C8: `RunMonteCarlo` with `trials ≤ 0` returns empty stats and no
error; if the engine construction rejects the params, it returns that
error unchanged together with empty stats — no partial results. -/
theorem C8_run_monte_carlo_edge_cases :
    (∀ (fuel : ℕ) (sqrtFn : ℚ → ℚ) (p : SimParams) (goal : TrialGoal) (trials : ℤ)
        (budget : Option SimBudget) (rng : Rng), trials ≤ 0 →
      RunMonteCarlo fuel sqrtFn p goal trials budget rng = some (Stats.empty, none)) ∧
    (∀ (fuel : ℕ) (sqrtFn : ℚ → ℚ) (p : SimParams) (goal : TrialGoal) (trials : ℤ)
        (budget : Option SimBudget) (rng : Rng) (e : Err), 0 < trials →
      newSoft p rng = .error e →
      RunMonteCarlo fuel sqrtFn p goal trials budget rng = some (Stats.empty, some e)) := by
  constructor
  · intro fuel sqrtFn p goal trials budget rng h
    unfold RunMonteCarlo
    rw [if_pos h]
  · intro fuel sqrtFn p goal trials budget rng e ht he
    unfold RunMonteCarlo
    rw [if_neg (by omega)]
    obtain ⟨n, hn⟩ : ∃ n, trials.toNat = n + 1 := ⟨trials.toNat - 1, by omega⟩
    rw [hn, mcLoop, simulateOne_err fuel p goal budget rng e he]

/-- Witness for C8 at `trials = 0` and at a params set whose ramp
start `5` leaves no room before `pity = 3` (construction error). -/
theorem C8_run_monte_carlo_edge_cases_witness :
    RunMonteCarlo 1 id ⟨1, 2, none, none, none, .unspecified, 0, [], 0⟩ .firstHit 0 none
        ⟨fun _ => (0:ℚ), 0⟩ = some (Stats.empty, none) ∧
    RunMonteCarlo 1 id ⟨1, 3, some 5, none, some 2, .unspecified, 0, [], 0⟩ .firstHit 1 none
        ⟨fun _ => (0:ℚ), 0⟩ = some (Stats.empty, some .softPityConfig) := by
  constructor
  · exact C8_run_monte_carlo_edge_cases.1 1 id _ .firstHit 0 none _ (by decide)
  · exact C8_run_monte_carlo_edge_cases.2 1 id _ .firstHit 1 none _ .softPityConfig
      (by decide) (by rfl)

/-- A concrete deterministic run used to witness C9: one trial at
`pBase = 1`, `pity = 2` hits on the first draw. -/
lemma runMonteCarlo_concrete :
    RunMonteCarlo 1 id ⟨1, 2, none, none, none, .unspecified, 0, [], 0⟩ .firstHit 1 none
        ⟨fun _ => (0:ℚ), 0⟩ = some (⟨1, 0, 0, 1, 1, 1, [1]⟩, none) := by
  norm_num [RunMonteCarlo, mcLoop, simulateOne, newSoft, newBanner, NewSoftPitySystem,
    firstHitLoop, SoftPitySystem.Draw, SoftPitySystem.effectiveProb, Draw, validateProb,
    calcStats, percentileOf, Stats.empty, List.insertionSort]

/-- C9: two `RunMonteCarlo` runs with identical params, goal, trial
count, budget and the same random stream produce bit-identical stats —
mean, variance, standard deviation, every reported percentile, and the
error — i.e. the simulator is deterministic given its random source. -/
theorem C9_run_monte_carlo_deterministic (fuel : ℕ) (sqrtFn : ℚ → ℚ)
    (p1 p2 : SimParams) (g1 g2 : TrialGoal) (t1 t2 : ℤ)
    (b1 b2 : Option SimBudget) (rng1 rng2 : Rng) (s1 s2 : Stats) (e1 e2 : Option Err)
    (hp : p1 = p2) (hg : g1 = g2) (ht : t1 = t2) (hb : b1 = b2) (hr : rng1 = rng2)
    (h1 : RunMonteCarlo fuel sqrtFn p1 g1 t1 b1 rng1 = some (s1, e1))
    (h2 : RunMonteCarlo fuel sqrtFn p2 g2 t2 b2 rng2 = some (s2, e2)) :
    s1.Mean = s2.Mean ∧ s1.Var = s2.Var ∧ s1.StdDev = s2.StdDev ∧
    s1.P50 = s2.P50 ∧ s1.P90 = s2.P90 ∧ s1.P99 = s2.P99 ∧ e1 = e2 := by
  subst hp; subst hg; subst ht; subst hb; subst hr
  rw [h1] at h2
  simp only [Option.some.injEq, Prod.mk.injEq] at h2
  obtain ⟨hs, he⟩ := h2
  subst hs; subst he
  exact ⟨rfl, rfl, rfl, rfl, rfl, rfl, rfl⟩

/-- Witness for C9: the concrete run of `runMonteCarlo_concrete`
repeated twice. -/
theorem C9_run_monte_carlo_deterministic_witness :
    (⟨1, 0, 0, 1, 1, 1, [1]⟩ : Stats).Mean = (⟨1, 0, 0, 1, 1, 1, [1]⟩ : Stats).Mean ∧
    (⟨1, 0, 0, 1, 1, 1, [1]⟩ : Stats).Var = (⟨1, 0, 0, 1, 1, 1, [1]⟩ : Stats).Var ∧
    (⟨1, 0, 0, 1, 1, 1, [1]⟩ : Stats).StdDev = (⟨1, 0, 0, 1, 1, 1, [1]⟩ : Stats).StdDev ∧
    (⟨1, 0, 0, 1, 1, 1, [1]⟩ : Stats).P50 = (⟨1, 0, 0, 1, 1, 1, [1]⟩ : Stats).P50 ∧
    (⟨1, 0, 0, 1, 1, 1, [1]⟩ : Stats).P90 = (⟨1, 0, 0, 1, 1, 1, [1]⟩ : Stats).P90 ∧
    (⟨1, 0, 0, 1, 1, 1, [1]⟩ : Stats).P99 = (⟨1, 0, 0, 1, 1, 1, [1]⟩ : Stats).P99 ∧
    (none : Option Err) = none :=
  C9_run_monte_carlo_deterministic 1 id _ _ .firstHit .firstHit 1 1 none none
    ⟨fun _ => (0:ℚ), 0⟩ ⟨fun _ => (0:ℚ), 0⟩ _ _ none none rfl rfl rfl rfl rfl
    runMonteCarlo_concrete runMonteCarlo_concrete

end Gacha

/-! ## Claim C10: an erroring draw leaves the engine state unchanged -/

namespace Gacha

/-- C10: every `Draw` call of the three engines that returns a non-nil
error leaves the pre-call counters intact: `Count` for the pity
systems; `Count`, `OffStreak` and `GuaranteedNext` for the banner. -/
theorem C10_error_state_unchanged :
    (∀ (ps : PitySystem) (p : ℚ) (hit : Bool) (e : Err) (ps' : PitySystem),
        ps.Draw p = (hit, some e, ps') → ps'.Count = ps.Count) ∧
    (∀ (s : SoftPitySystem) (p : ℚ) (hit : Bool) (e : Err) (s' : SoftPitySystem),
        s.Draw p = (hit, some e, s') → s'.Count = s.Count) ∧
    (∀ (b : BannerSystem) (p : ℚ) (out : BannerOutcome) (e : Err) (b' : BannerSystem),
        b.Draw p = (out, some e, b') →
          b'.SoftPity.Count = b.SoftPity.Count ∧ b'.OffStreak = b.OffStreak ∧
            b'.GuaranteedNext = b.GuaranteedNext) :=
  ⟨fun ps p hit e ps' h => (pity_draw_err_state ps p hit e ps' h).1,
   fun s p hit e s' h => (soft_draw_err_state s p hit e s' h).1,
   fun b p out e b' h => banner_draw_err_state b p out e b' h⟩

/-- Witness for C10: a draw at the invalid probability `p = 2` errors
in each engine and the counters are unchanged. -/
theorem C10_error_state_unchanged_witness :
    ((⟨5, 0, ⟨fun _ => (0:ℚ), 0⟩⟩ : PitySystem).Draw 2).2.2.Count
        = (⟨5, 0, ⟨fun _ => (0:ℚ), 0⟩⟩ : PitySystem).Count ∧
    ((⟨5, 0, ⟨fun _ => (0:ℚ), 0⟩, none⟩ : SoftPitySystem).Draw 2).2.2.Count
        = (⟨5, 0, ⟨fun _ => (0:ℚ), 0⟩, none⟩ : SoftPitySystem).Count ∧
    ((⟨⟨5, 0, ⟨fun _ => (0:ℚ), 0⟩, none⟩, [1/2], 1, false, 0⟩ : BannerSystem).Draw 2).2.2.OffStreak
        = (⟨⟨5, 0, ⟨fun _ => (0:ℚ), 0⟩, none⟩, [1/2], 1, false, 0⟩ : BannerSystem).OffStreak := by
  refine ⟨?_, ?_, ?_⟩
  · exact C10_error_state_unchanged.1 _ 2 false .invalidProb _ (by rfl)
  · exact C10_error_state_unchanged.2.1 _ 2 false .invalidProb _ (by rfl)
  · exact (C10_error_state_unchanged.2.2 _ 2 BannerOutcome.empty .invalidProb _ (by rfl)).2.1

end Gacha
